import Mathlib

set_option maxRecDepth 40000
set_option linter.unusedVariables false
set_option linter.unnecessarySeqFocus false

/-!
Verification of the LINZ_WFS synchronization script (src/LINZ_WFS.py)
against its natural-language specification.

The Python source is shallowly embedded: each relevant function of the
script becomes a Lean definition over explicit data (lists of rows,
option-typed files, Nat instants for UTC timestamps).  External
collaborators (the arcpy geoprocessing tools, the HTTP transport) enter
only through their observable effect on the modelled data: a geometry
intersection test or a SQL match is an abstract boolean predicate passed
as an argument, a poll of the remote job is an abstract response stream
`Nat → PollResp`.  Python exceptions are modelled by the `Res` result
type; a raised exception aborts the embedded function exactly where the
source raises.
-/

namespace LINZ

/-- Result of a Python call: normal return or a raised exception. -/
inductive Res (α : Type) where
  | ok (v : α)
  | err (msg : String)
deriving DecidableEq, Repr

/-- Python str.lower() restricted to the ASCII tags the script compares. -/
def pyLower (s : String) : String := String.mk (s.toList.map Char.toLower)

/-! ## Changeset records and the mirror (applyChangeset, lines 650-745)

A changeset row carries the identifier, the synthetic `__change__` tag and
(abstractly) the rest of its attribute payload; a mirror row carries the
identifier and its payload.  Geometry and the remaining columns are folded
into `payload`: `applyChangeset` never inspects them, it only counts rows,
matches identifiers and replaces whole rows. -/

structure ChangeRec where
  id : Int
  tag : String
  payload : String
deriving DecidableEq, Repr

structure MirrorRow where
  id : Int
  payload : String
deriving DecidableEq, Repr

/-- SelectLayerByAttribute with where_clause `__change__ = t` followed by
GetCount: the number of changeset rows whose tag equals `t` exactly
(case-sensitive, as in the source). -/
def countTag (cs : List ChangeRec) (t : String) : Nat :=
  (cs.filter (fun r => r.tag = t)).length

/-- SearchCursor with where_clause `LOWER(__change__) = 'delete'`
(lines 700-704): the identifiers of delete records, matched
case-insensitively. -/
def delete_ids (cs : List ChangeRec) : List Int :=
  (cs.filter (fun r => pyLower r.tag = "delete")).map (fun r => r.id)

/-- Identifiers of rows tagged exactly INSERT. -/
def insert_ids (cs : List ChangeRec) : List Int :=
  (cs.filter (fun r => r.tag = "INSERT")).map (fun r => r.id)

/-- Identifiers of rows tagged exactly UPDATE. -/
def update_ids (cs : List ChangeRec) : List Int :=
  (cs.filter (fun r => r.tag = "UPDATE")).map (fun r => r.id)

/-- The delete/insert/update identifier sets are pairwise disjoint
(the claims' hypothesis). -/
def disjointIds (cs : List ChangeRec) : Prop :=
  (∀ i ∈ delete_ids cs, ¬ i ∈ insert_ids cs ∧ ¬ i ∈ update_ids cs) ∧
  (∀ i ∈ insert_ids cs, ¬ i ∈ update_ids cs)

instance (cs : List ChangeRec) : Decidable (disjointIds cs) := by
  unfold disjointIds; infer_instance

/-- The rows Append adds with expression `__change__ = 'INSERT'`
(lines 721-731). -/
def insertRows (cs : List ChangeRec) : List MirrorRow :=
  (cs.filter (fun r => r.tag = "INSERT")).map (fun r => { id := r.id, payload := r.payload })

/-- The rows the UPDATE pass reads (where_clause `__change__ = 'UPDATE'`). -/
def updateRecs (cs : List ChangeRec) : List ChangeRec :=
  cs.filter (fun r => r.tag = "UPDATE")

/-- updates_dict lookup: the dictionary is written in cursor order, so a
later UPDATE row with the same identifier overwrites an earlier one. -/
def lookupUpdate (cs : List ChangeRec) (i : Int) : Option ChangeRec :=
  (updateRecs cs).reverse.find? (fun r => r.id = i)

/-- Lines 706-716: the batch delete runs only when the count of rows tagged
exactly DELETE is positive; the predicate `id_field in (delete_ids)` then
removes every mirror row whose identifier is in the case-insensitively
collected list. -/
def deletePhase (cs : List ChangeRec) (m : List MirrorRow) : List MirrorRow :=
  if 0 < countTag cs "DELETE" then
    m.filter (fun r => !(decide (r.id ∈ delete_ids cs)))
  else m

/-- Lines 721-731: Append of the INSERT rows, run only when their count is
positive. -/
def insertPhase (cs : List ChangeRec) (m : List MirrorRow) : List MirrorRow :=
  if 0 < countTag cs "INSERT" then m ++ insertRows cs else m

/-- Lines 733-735 and processUpdates: a single UpdateCursor pass over the
mirror; a row whose identifier is a key of updates_dict has its attributes
replaced by the source row, rows are never added or removed. -/
def updatePhase (cs : List ChangeRec) (m : List MirrorRow) : List MirrorRow :=
  if 0 < countTag cs "UPDATE" then
    m.map (fun r =>
      match lookupUpdate cs r.id with
      | some c => { id := r.id, payload := c.payload }
      | none => r)
  else m

/-- What applyChangeset returns and logs: the mutated mirror, the counts it
computed, and whether the final row count disagreed with
`before - deletes + inserts` (logged as a warning, lines 737-745). -/
structure ApplyReport where
  mirror : List MirrorRow
  count_target : Nat
  count_inserts : Nat
  count_updates : Nat
  count_deletes : Nat
  final_total : Nat
  expected_total : Int
  mismatch : Bool
deriving DecidableEq, Repr

/-- applyChangeset (lines 650-745): count, delete, insert, update, then the
row-count invariant check.  A mismatch only sets the flag (a logged
warning); the function always completes and returns its report. -/
def applyChangeset (cs : List ChangeRec) (m : List MirrorRow) : ApplyReport :=
  let count_target := m.length
  let count_inserts := countTag cs "INSERT"
  let count_updates := countTag cs "UPDATE"
  let count_deletes := countTag cs "DELETE"
  let m1 := deletePhase cs m
  let m2 := insertPhase cs m1
  let m3 := updatePhase cs m2
  let final_total := m3.length
  let expected_total : Int :=
    (count_target : Int) - (count_deletes : Int) + (count_inserts : Int)
  { mirror := m3
    count_target := count_target
    count_inserts := count_inserts
    count_updates := count_updates
    count_deletes := count_deletes
    final_total := final_total
    expected_total := expected_total
    mismatch := expected_total != (final_total : Int) }

/-! ## Post-download filters (lines 806-852)

An abstract geometry handle; whether a row intersects the extent geometry
is an external spatial query, passed in as a boolean predicate. -/

structure Geom where
  gid : Nat
deriving DecidableEq, Repr

/-- deleteFeaturesNotIntersectingExtent (lines 806-831): no feature class or
no extent geometry is a silent no-op; otherwise every row that does not
intersect the extent is deleted.  The feature class may hold changeset rows
or mirror rows, hence the type parameter. -/
def deleteFeaturesNotIntersectingExtent {α : Type} (extent_geometry : Option Geom)
    (intersects : Geom → α → Bool) (fc : Option (List α)) : Option (List α) :=
  match fc with
  | none => none
  | some rows =>
    match extent_geometry with
    | none => some rows
    | some g => some (rows.filter (fun r => intersects g r))

/-- deleteFeaturesNotMatchingSQL as written (lines 834-852): no feature
class or no configured filter is a silent no-op, but the selection call
passes the bare name `sql_filter` (line 848) which is not defined in the
function body, so a configured filter raises NameError before any row is
examined. -/
def deleteFeaturesNotMatchingSQL {α : Type} (sql_filter : Option String)
    (fc : Option (List α)) : Res (Option (List α)) :=
  match fc with
  | none => .ok none
  | some rows =>
    match sql_filter with
    | none => .ok (some rows)
    | some _ => .err "NameError: name sql_filter is not defined"

/-- The attribute filter as the docstring of deleteFeaturesNotMatchingSQL
describes it (delete all features that do not match the given SQL
where_clause), i.e. the body with `self.sql_filter` in place of the
undefined `sql_filter`.  `matchesSql s r` is the external query engine
evaluating where-clause `s` on row `r`. -/
def deleteFeaturesNotMatchingSQLIntended {α : Type} (matchesSql : String → α → Bool)
    (sql_filter : Option String) (fc : Option (List α)) : Option (List α) :=
  match fc with
  | none => none
  | some rows =>
    match sql_filter with
    | none => some rows
    | some s => some (rows.filter (fun r => matchesSql s r))

/-! ## Changeset file, watermark file and the processing pipeline
(number_of_changes lines 288-297, processChangeSet lines 351-361,
processFullDownload lines 336-345, update_last_updated_file lines 940-954)

UTC instants are modelled as Nat: the script only ever writes ISO-8601 UTC
strings with a trailing Z, whose ordering is the ordering of the instants.
The changeset file is `none` when the path does not refer to an existing
file; otherwise it holds the parsed numberReturned, the server-reported
timeStamp and the tagged records. -/

structure ChangesetFile where
  numberReturned : Nat
  timeStamp : Option Nat
  records : List ChangeRec
deriving DecidableEq, Repr

/-- number_of_changes (lines 288-297): 0 when the changeset file does not
exist, else the numberReturned field of the parsed file. -/
def number_of_changes (changeset_file : Option ChangesetFile) : Nat :=
  match changeset_file with
  | none => 0
  | some d => d.numberReturned

/-- update_last_updated_file (lines 940-954): the value written to
last_updated.json.  Only a datetime instance is used as given; every other
argument (including the None of both call sites) makes it write the current
UTC time. -/
def update_last_updated_file (update_time : Option Nat) (utcnow : Nat) : Nat :=
  match update_time with
  | some t => t
  | none => utcnow

/-- The observable outcome of processChangeSet: whether the changeset was
converted to a feature class, whether the merge ran, the watermark file
contents after the run, and the mirror after the run. -/
structure CsOutcome where
  converted : Bool
  merged : Bool
  watermark : Option Nat
  mirror : List MirrorRow
deriving DecidableEq, Repr

/-- processChangeSet (lines 351-361): when the file reports more than zero
changes, convert it, filter by extent and by the configured SQL, apply the
changeset and then write the watermark file with the current UTC time;
otherwise log a warning and do nothing.  Any exception (for example the
NameError of the SQL filter) aborts the run before the watermark write.
`utcnow` is the UTC instant at which update_last_updated_file would run,
`watermark` the watermark file contents before the run. -/
def processChangeSet (extent_geometry : Option Geom)
    (intersects : Geom → ChangeRec → Bool) (sql_filter : Option String)
    (changeset_file : Option ChangesetFile) (utcnow : Nat)
    (mirror : List MirrorRow) (watermark : Option Nat) : Res CsOutcome :=
  if 0 < number_of_changes changeset_file then
    let recs := match changeset_file with
      | some d => d.records
      | none => []
    let fc1 := deleteFeaturesNotIntersectingExtent extent_geometry intersects (some recs)
    match deleteFeaturesNotMatchingSQL sql_filter fc1 with
    | .err e => .err e
    | .ok fc2 =>
      let rep := applyChangeset (fc2.getD []) mirror
      .ok { converted := true
            merged := true
            watermark := some (update_last_updated_file none utcnow)
            mirror := rep.mirror }
  else
    .ok { converted := false
          merged := false
          watermark := watermark
          mirror := mirror }

/-- The observable outcome of processFullDownload. -/
structure FullOutcome where
  watermark : Option Nat
  mirror : List MirrorRow
deriving DecidableEq, Repr

/-- processFullDownload (lines 336-345): copy the downloaded rows to the
staging feature class, filter by extent and by the configured SQL, then
write the watermark file with the current UTC time.  An exception in a
filter aborts the run before the watermark write. -/
def processFullDownload (extent_geometry : Option Geom)
    (intersects : Geom → MirrorRow → Bool) (sql_filter : Option String)
    (zip_rows : List MirrorRow) (utcnow : Nat) : Res FullOutcome :=
  let fc1 := deleteFeaturesNotIntersectingExtent extent_geometry intersects (some zip_rows)
  match deleteFeaturesNotMatchingSQL sql_filter fc1 with
  | .err e => .err e
  | .ok fc2 =>
    .ok { watermark := some (update_last_updated_file none utcnow)
          mirror := fc2.getD [] }

/-- The watermark file contents after one full-refresh run: a raised
exception leaves the file exactly as it was. -/
def fullRunWatermark (extent_geometry : Option Geom)
    (intersects : Geom → MirrorRow → Bool) (sql_filter : Option String)
    (zip_rows : List MirrorRow) (utcnow : Nat) (w : Option Nat) : Option Nat :=
  match processFullDownload extent_geometry intersects sql_filter zip_rows utcnow with
  | .ok o => o.watermark
  | .err _ => w

/-- One incremental run as the watermark store sees it: the inputs of
processChangeSet together with the UTC instant at which the run would
write the watermark file. -/
structure CsRunArgs where
  extent_geometry : Option Geom
  sql_filter : Option String
  changeset_file : Option ChangesetFile
  utcnow : Nat
  mirror : List MirrorRow
deriving Repr

/-- The watermark file contents after one incremental run: a raised
exception leaves the file exactly as it was. -/
def csRunWatermark (intersects : Geom → ChangeRec → Bool) (a : CsRunArgs)
    (w : Option Nat) : Option Nat :=
  match processChangeSet a.extent_geometry intersects a.sql_filter
      a.changeset_file a.utcnow a.mirror w with
  | .ok o => o.watermark
  | .err _ => w

/-- The watermark file contents after a sequence of incremental runs. -/
def watermarkSeq (intersects : Geom → ChangeRec → Bool) (w0 : Option Nat)
    (runs : List CsRunArgs) : Option Nat :=
  runs.foldl (fun w a => csRunWatermark intersects a w) w0

/-- Ordering on watermark file contents: an absent watermark is below
everything, present watermarks compare as instants. -/
def optionLe (w1 w2 : Option Nat) : Prop :=
  ∀ v1, w1 = some v1 → ∃ v2, w2 = some v2 ∧ v1 ≤ v2

/-! ## The export poll loop (download_export, lines 457-521)

The remote job is an abstract response stream: `responses n` is what the
n-th GET of the status URL returns.  The loop checks the elapsed time
before every poll, breaks out on a complete state, a non-2xx status or an
unparseable body (falling through to the download step), and sleeps
`interval` seconds after every other poll.  When the elapsed time reaches
maxWait the while-else branch raises LINZError. -/

inductive PollResp where
  | ok (state : String) (progress : Int)
  | badStatus (code : Nat)
  | unparsable
deriving DecidableEq, Repr

/-- How the poll loop ends: it either falls through to the download step or
raises a LINZError carrying the given message. -/
inductive PollOutcome where
  | proceedToDownload
  | raisedLINZError (msg : String)
deriving DecidableEq, Repr

/-- The message of the LINZError raised on timeout, exactly as line 500
builds it: the string is not an f-string, so the text contains the literal
characters of the placeholder and not the export identifier. -/
def timeoutMessage : String :=
  "Polling finished: reached the limit of attempts or time. If necessary, consider increasing these limits in the configuration file. You can resume polling for this export by using --resume \x7bself.export_id\x7d."

/-- The while loop of download_export, structurally recursive on a fuel
bound.  Each iteration first checks `elapsed < maxWait`, polls, breaks on
complete / non-2xx / unparseable, and otherwise sleeps `interval`; the
fuel value used by `download_export` exceeds the greatest possible number
of iterations whenever interval ≥ 1, so the fuel-exhausted branch (which
returns the same timeout error as the while-else) is never reached there. -/
def pollLoop (responses : Nat → PollResp) (interval maxWait : Nat) :
    Nat → Nat → Nat → PollOutcome
  | 0, _, _ => .raisedLINZError timeoutMessage
  | fuel + 1, elapsed, attempt =>
    if elapsed < maxWait then
      match responses (attempt + 1) with
      | .badStatus _ => .proceedToDownload
      | .unparsable => .proceedToDownload
      | .ok state _ =>
        if state = "complete" then .proceedToDownload
        else pollLoop responses interval maxWait fuel (elapsed + interval) (attempt + 1)
    else .raisedLINZError timeoutMessage

/-- download_export (lines 457-521) up to the end of the poll loop: polls
from elapsed time 0, attempt counter 0.  The export identifier is in scope
in the source (self.export_id) but, the timeout message not being an
f-string, it never reaches the outcome. -/
def download_export (responses : Nat → PollResp) (interval maxWait : Nat)
    (export_id : String) : PollOutcome :=
  pollLoop responses interval maxWait (maxWait + 1) 0 0

/-- A status stream that reports a running, zero-progress job forever. -/
def runningForever : Nat → PollResp := fun _ => .ok "running" 0

/-! ## Field-level update application (processUpdates, lines 748-803)

The arcpy Describe of a table gives its field list plus the names of the
internal row-id (OID) and global-id fields in their original case; cursor
rows are tuples aligned with the requested field-name list.  Values are
the scalars the script moves around: integers, strings, parsed datetimes,
doubles holding the upstream float-encoded integral identifiers, NULL. -/

structure PyDateTime where
  year : Nat
  month : Nat
  day : Nat
  hour : Nat
  minute : Nat
  second : Nat
deriving DecidableEq, Repr

inductive Val where
  | i (n : Int)
  | dbl (n : Int)
  | s (str : String)
  | d (dt : PyDateTime)
  | null
deriving DecidableEq, Repr

/-- Field types as arcpy ListFields/Describe report them. -/
inductive FType where
  | Date
  | Text
  | Integer
  | SmallInteger
  | Double
  | Float
  | OID
  | GlobalID
  | Geometry
deriving DecidableEq, Repr

structure FieldDesc where
  name : String
  ftype : FType
deriving DecidableEq, Repr

/-- An arcpy Describe result: the field list, and the row-id / global-id
field names in their original case (empty when the table has none). -/
structure TableDesc where
  fields : List FieldDesc
  oidFieldName : String
  globalIDFieldName : String
deriving DecidableEq, Repr

/-- Line 762-763: the lowercased field names of a table. -/
def lowerFieldNames (t : TableDesc) : List String :=
  t.fields.map (fun f => pyLower f.name)

/-- Lines 769-770: exclude_fields holds the Describe names as given, in
their original case. -/
def exclude_fields (source target : TableDesc) : List String :=
  [source.globalIDFieldName, source.oidFieldName,
   target.globalIDFieldName, target.oidFieldName]

/-- Line 772: the lowercased source field names that survive the exclusion
test (the lowercased name is compared against the original-case Describe
names). -/
def source_fields (source target : TableDesc) : List String :=
  (lowerFieldNames source).filter (fun f => !(decide (f ∈ exclude_fields source target)))

/-- Line 773: likewise for the target. -/
def target_fields (source target : TableDesc) : List String :=
  (lowerFieldNames target).filter (fun f => !(decide (f ∈ exclude_fields source target)))

/-- Line 776: lowercased names of the target's Date-typed fields. -/
def date_fields (target : TableDesc) : List String :=
  (target.fields.filter (fun f => f.ftype = .Date)).map (fun f => pyLower f.name)

/-- First position of lowercased field name `f` in table `t`
(list.index / the cursor's tuple position). -/
def fieldIdx (t : TableDesc) (f : String) : Nat :=
  (lowerFieldNames t).findIdx (fun n => n = f)

/-- The value of field `f` in a full row of table `t`; none when the table
has no such field. -/
def rowVal (t : TableDesc) (row : List Val) (f : String) : Option Val :=
  row.get? (fieldIdx t f)

/-- `cursorRow[names.index f]` for a cursor over table `t` opened with
field_names `names` and the full row `row`: Python's list.index raises
ValueError when `f` is not among the requested names. -/
def cursorVal (names : List String) (t : TableDesc) (row : List Val) (f : String) : Res Val :=
  if f ∈ names then
    match rowVal t row f with
    | some v => .ok v
    | none => .err "IndexError: tuple index out of range"
  else .err "ValueError: not in list"

/-- One decimal digit of an ASCII character. -/
def digitVal (c : Char) : Option Nat :=
  if c.isDigit then some (c.toNat - 48) else none

/-- Two decimal digits. -/
def twoDigits (a b : Char) : Option Nat :=
  match digitVal a, digitVal b with
  | some x, some y => some (10 * x + y)
  | _, _ => none

/-- Four decimal digits. -/
def fourDigits (a b c d : Char) : Option Nat :=
  match twoDigits a b, twoDigits c d with
  | some x, some y => some (100 * x + y)
  | _, _ => none

/-- datetime.strptime(val, %Y-%m-%dT%H:%M:%SZ) (line 796): the fixed wire
format, with the field ranges strptime enforces; none models the raised
ValueError. -/
def strptimeWire (str : String) : Option PyDateTime :=
  match str.toList with
  | [y1, y2, y3, y4, g1, m1, m2, g2, d1, d2, t1, h1, h2, c1, n1, n2, c2, s1, s2, z1] =>
    if g1 = '-' ∧ g2 = '-' ∧ t1 = 'T' ∧ c1 = ':' ∧ c2 = ':' ∧ z1 = 'Z' then
      match fourDigits y1 y2 y3 y4, twoDigits m1 m2, twoDigits d1 d2,
          twoDigits h1 h2, twoDigits n1 n2, twoDigits s1 s2 with
      | some y, some mo, some da, some hr, some mi, some se =>
        if 1 ≤ mo ∧ mo ≤ 12 ∧ 1 ≤ da ∧ da ≤ 31 ∧ hr ≤ 23 ∧ mi ≤ 59 ∧ se ≤ 61 then
          some { year := y, month := mo, day := da, hour := hr, minute := mi, second := se }
        else none
      | _, _, _, _, _, _ => none
    else none
  | _ => none

/-- Sequence a list of fallible computations, stopping at the first raised
exception (the straight-line Python loop). -/
def resMap {α β : Type} (f : α → Res β) : List α → Res (List β)
  | [] => .ok []
  | a :: as =>
    match f a with
    | .err e => .err e
    | .ok b =>
      match resMap f as with
      | .err e => .err e
      | .ok bs => .ok (b :: bs)

/-- Lines 793-799: the value written into one target column: a date-typed
column parses the wire string into a datetime, every other column copies
the source value as is. -/
def transformVal (target : TableDesc) (f : String) (v : Val) : Res Val :=
  if f ∈ date_fields target then
    match v with
    | .s str =>
      match strptimeWire str with
      | some dt => .ok (.d dt)
      | none => .err "ValueError: time data does not match format"
    | _ => .err "TypeError: strptime argument 1 must be str"
  else .ok v

/-- Lines 791-800: overwrite one matched target row from the source row:
for every target schema position whose lowercased name survived the
exclusion, read the source value through the source cursor and transform
it; other positions keep their value. -/
def applyUpdateToRow (source target : TableDesc) (srow trow : List Val) : Res (List Val) :=
  resMap (fun p =>
      let f := pyLower p.1.name
      if f ∈ target_fields source target then
        match cursorVal (source_fields source target) source srow f with
        | .err e => .err e
        | .ok v => transformVal target f v
      else .ok p.2)
    (target.fields.zip trow)

/-- The rows the SearchCursor of line 781 yields (where_clause
`__change__ = 'UPDATE'`, an exact match). -/
def updateSourceRows (source : TableDesc) (srcRows : List (List Val)) : List (List Val) :=
  srcRows.filter (fun r => decide (rowVal source r "__change__" = some (.s "UPDATE")))

/-- Lines 780-785: updates_dict as an association list in insertion order;
`record_id` is the id-field entry of the cursor tuple. -/
def updatesDict (source target : TableDesc) (id_field : String)
    (srcRows : List (List Val)) : Res (List (Val × List Val)) :=
  resMap (fun r =>
      match cursorVal (source_fields source target) source r id_field with
      | .err e => .err e
      | .ok rid => .ok (rid, r))
    (updateSourceRows source srcRows)

/-- processUpdates (lines 748-803): build updates_dict from the source,
then one UpdateCursor pass over the target, overwriting every row whose
id-field value is a key of the dictionary (a later duplicate key wins, as
in the dict). -/
def processUpdates (source target : TableDesc) (id_field : String)
    (srcRows tgtRows : List (List Val)) : Res (List (List Val)) :=
  match updatesDict source target id_field srcRows with
  | .err e => .err e
  | .ok dict =>
    resMap (fun trow =>
        match cursorVal (target_fields source target) target trow id_field with
        | .err e => .err e
        | .ok rid =>
          match dict.reverse.find? (fun p => p.1 = rid) with
          | none => .ok trow
          | some p => applyUpdateToRow source target p.2 trow)
      tgtRows

/-! ## Identifier normalization (convertIdFieldToInteger, lines 855-938)

A feature class carries its schema, its rows (aligned with the schema) and
its attribute indexes. -/

structure IndexDef where
  index_name : String
  fieldName : String
  unique : Bool
deriving DecidableEq, Repr

structure FeatureClass where
  fields : List FieldDesc
  rows : List (List Val)
  indexes : List IndexDef
deriving DecidableEq, Repr

/-- AddIndex with index_name id_idx2 and unique UNIQUE (lines 881-887 and
917-923), as the abstract store's (re)build of that index. -/
def addIndex (indexes : List IndexDef) (fieldName : String) : List IndexDef :=
  (indexes.filter (fun ix => !(decide (ix.index_name = "id_idx2"))))
    ++ [{ index_name := "id_idx2", fieldName := fieldName, unique := true }]

/-- First position of field named exactly `name` in the schema. -/
def fcColIdx (fc : FeatureClass) (name : String) : Nat :=
  fc.fields.findIdx (fun f => f.name = name)

/-- AddField with field_type LONG, which ListFields reports as type Integer
(arcpy appends the new column at the end of the schema, NULL in every
row). -/
def addFieldLong (fc : FeatureClass) (name : String) : FeatureClass :=
  { fc with
    fields := fc.fields ++ [{ name := name, ftype := .Integer }]
    rows := fc.rows.map (fun r => r ++ [Val.null]) }

/-- DeleteField: drop the column from the schema and from every row. -/
def deleteField (fc : FeatureClass) (name : String) : FeatureClass :=
  let i := fcColIdx fc name
  { fc with
    fields := fc.fields.eraseIdx i
    rows := fc.rows.map (fun r => r.eraseIdx i) }

/-- Storing a Python numeric value into a LONG column: the upstream doubles
hold integral identifier values, which the store coerces to integers. -/
def storeAsLong : Val → Val
  | .dbl n => .i n
  | .i n => .i n
  | v => v

/-- CalculateField dst = !src! where dst is a LONG column (lines 898-906
and 924-932). -/
def calculateField (fc : FeatureClass) (dst src : String) : FeatureClass :=
  let si := fcColIdx fc src
  let di := fcColIdx fc dst
  { fc with
    rows := fc.rows.map (fun r => r.set di (storeAsLong (r.getD si Val.null))) }

/-- convertIdFieldToInteger (lines 855-938): a missing id field or a
non-numeric one is logged and left alone; an already-Integer id field only
gets the unique index rebuilt; otherwise the value migration runs through
the temporary column _uniqueIdentifier. -/
def convertIdFieldToInteger (id_field : String) (fc : FeatureClass) : FeatureClass :=
  match fc.fields.find? (fun f => f.name = id_field) with
  | none => fc
  | some field =>
    if field.ftype = .Double ∨ field.ftype = .Float
        ∨ field.ftype = .Integer ∨ field.ftype = .SmallInteger then
      if field.ftype = .Integer then
        { fc with indexes := addIndex fc.indexes id_field }
      else
        let fc1 := addFieldLong fc "_uniqueIdentifier"
        let fc2 := calculateField fc1 "_uniqueIdentifier" id_field
        let fc3 := deleteField fc2 id_field
        let fc4 := addFieldLong fc3 id_field
        let fc5 := { fc4 with indexes := addIndex fc4.indexes id_field }
        let fc6 := calculateField fc5 id_field "_uniqueIdentifier"
        deleteField fc6 "_uniqueIdentifier"
    else fc

/-! ## Retention purge (purgeChangesets, lines 1018-1068) -/

/-- A downloaded artifact: its file name and its creation time
(os.path.getctime). -/
structure Artifact where
  artifact_name : String
  ctime : Nat
deriving DecidableEq, Repr

/-- Newest first, the sort key of lines 1030 and 1043. -/
def ctimeDesc (a b : Artifact) : Prop := b.ctime ≤ a.ctime

instance : DecidableRel ctimeDesc := fun a b => Nat.decLe b.ctime a.ctime

instance : IsTotal Artifact ctimeDesc :=
  ⟨fun a b => Nat.le_total b.ctime a.ctime⟩

instance : IsTrans Artifact ctimeDesc :=
  ⟨fun _ _ _ h1 h2 => Nat.le_trans h2 h1⟩

/-- files.sort(key=getctime, reverse=True) followed by deleting
files[retain:]: the retained artifacts. -/
def keepNewest (retain : Nat) (files : List Artifact) : List Artifact :=
  (files.insertionSort ctimeDesc).take retain

/-- Lexicographic comparison of character lists by code point: Python's
string ordering, used by feature_classes.sort() on line 1060. -/
def lexLe : List Char → List Char → Bool
  | [], _ => true
  | _ :: _, [] => false
  | a :: as, b :: bs =>
    if a.toNat < b.toNat then true
    else if b.toNat < a.toNat then false
    else lexLe as bs

/-- Python string ordering as a relation. -/
def nameAsc (a b : String) : Prop := lexLe a.toList b.toList = true

instance : DecidableRel nameAsc := fun a b =>
  instDecidableEqBool (lexLe a.toList b.toList) true

/-- Unfolding of lexLe on two non-empty lists. -/
def lexLe_cons_iff (a b : Char) (as bs : List Char) :
    lexLe (a :: as) (b :: bs) = true ↔
      a.toNat < b.toNat ∨ (a.toNat = b.toNat ∧ lexLe as bs = true) := by
  simp only [lexLe]
  split_ifs with h1 h2
  · simp [h1]
  · constructor
    · intro h
      exact absurd h (by simp)
    · intro h
      omega
  · constructor
    · intro h
      right
      exact ⟨by omega, h⟩
    · intro h
      rcases h with h | h
      · omega
      · exact h.2

/-- lexLe is total. -/
def lexLe_total (as bs : List Char) : lexLe as bs = true ∨ lexLe bs as = true := by
  induction as generalizing bs with
  | nil => left; rfl
  | cons a as ih =>
    cases bs with
    | nil => right; rfl
    | cons b bs =>
      rcases Nat.lt_trichotomy a.toNat b.toNat with h | h | h
      · left
        rw [lexLe_cons_iff]
        exact Or.inl h
      · rcases ih bs with h2 | h2
        · left
          rw [lexLe_cons_iff]
          exact Or.inr ⟨h, h2⟩
        · right
          rw [lexLe_cons_iff]
          exact Or.inr ⟨h.symm, h2⟩
      · right
        rw [lexLe_cons_iff]
        exact Or.inl h

/-- lexLe is transitive. -/
def lexLe_trans (as bs cs : List Char) (h1 : lexLe as bs = true)
    (h2 : lexLe bs cs = true) : lexLe as cs = true := by
  induction as generalizing bs cs with
  | nil => rfl
  | cons a as ih =>
    cases bs with
    | nil => simp [lexLe] at h1
    | cons b bs =>
      cases cs with
      | nil => simp [lexLe] at h2
      | cons c cs =>
        rw [lexLe_cons_iff] at h1 h2 ⊢
        rcases h1 with h1 | ⟨h1e, h1r⟩ <;> rcases h2 with h2 | ⟨h2e, h2r⟩
        · exact Or.inl (by omega)
        · exact Or.inl (by omega)
        · exact Or.inl (by omega)
        · exact Or.inr ⟨by omega, ih bs cs h1r h2r⟩

instance : IsTotal String nameAsc :=
  ⟨fun a b => lexLe_total a.toList b.toList⟩

instance : IsTrans String nameAsc :=
  ⟨fun a b c => lexLe_trans a.toList b.toList c.toList⟩

/-- Python's `pat in s` substring test. -/
def pyContains (s pat : String) : Bool := decide (pat.toList <:+: s.toList)

/-- Line 1059: the feature classes whose name contains "changeset". -/
def changesetFcs (feature_classes : List String) : List String :=
  feature_classes.filter (fun n => pyContains n "changeset")

/-- Lines 1059-1061: sort the changeset feature classes ascending by name
and mark all but the last `retain` for deletion
(changeset_feature_classes[:-retain]). -/
def fcsToDelete (retain : Nat) (feature_classes : List String) : List String :=
  ((changesetFcs feature_classes).insertionSort nameAsc).take
    (((changesetFcs feature_classes).insertionSort nameAsc).length - retain)

/-- The feature classes still in the workspace after the deletion loop of
lines 1062-1067. -/
def purgeFcsKept (retain : Nat) (feature_classes : List String) : List String :=
  feature_classes.filter (fun n => !(decide (n ∈ fcsToDelete retain feature_classes)))

/-- purgeChangesets (lines 1018-1068): a falsy retain_after_purge (0)
skips the purge entirely; otherwise the three artifact kinds are purged
independently: json changeset files and full-download zip files keep the
`retain` newest by creation time, changeset feature classes keep the
`retain` greatest by name.  The result is (json kept, zips kept, feature
classes kept). -/
def purgeChangesets (retain_after_purge : Nat) (json_files zip_files : List Artifact)
    (feature_classes : List String) : List Artifact × List Artifact × List String :=
  if retain_after_purge = 0 then (json_files, zip_files, feature_classes)
  else
    (keepNewest retain_after_purge json_files,
     keepNewest retain_after_purge zip_files,
     purgeFcsKept retain_after_purge feature_classes)

/-! ## Concrete instances used by counterexamples and witnesses -/

/-- A changeset holding one DELETE record whose identifier matches no
mirror row. -/
def csUnmatchedDelete : List ChangeRec := [{ id := 99, tag := "DELETE", payload := "" }]

/-- A one-row mirror. -/
def mirrorOne : List MirrorRow := [{ id := 1, payload := "a" }]

/-- Scenario A of the spec: insert id 3, delete id 1. -/
def csScenarioA : List ChangeRec :=
  [{ id := 3, tag := "INSERT", payload := "c" }, { id := 1, tag := "DELETE", payload := "" }]

/-- Scenario A's mirror {1 ↦ a, 2 ↦ b}. -/
def mirrorScenarioA : List MirrorRow :=
  [{ id := 1, payload := "a" }, { id := 2, payload := "b" }]

/-- A changeset whose only delete record is tagged in lower case. -/
def csLowerDelete : List ChangeRec := [{ id := 1, tag := "delete", payload := "" }]

/-- A trivial intersection predicate for instantiating the pipeline. -/
def interTrue : Geom → ChangeRec → Bool := fun _ _ => true

/-- A first incremental run: one insert, completing at UTC instant 5. -/
def runEx1 : CsRunArgs :=
  { extent_geometry := none
    sql_filter := none
    changeset_file := some
      { numberReturned := 1
        timeStamp := none
        records := [{ id := 2, tag := "INSERT", payload := "b" }] }
    utcnow := 5
    mirror := [] }

/-- A second incremental run: zero changes, completing at UTC instant 9. -/
def runEx2 : CsRunArgs :=
  { extent_geometry := none
    sql_filter := none
    changeset_file := some { numberReturned := 0, timeStamp := some 7, records := [] }
    utcnow := 9
    mirror := [] }

/-- Source changeset table of the update example: the standard arcpy
OBJECTID row-id (reported by Describe in its original upper case), the
configured id field, one attribute and the tag column. -/
def srcDescEx : TableDesc :=
  { fields := [{ name := "OBJECTID", ftype := .OID }, { name := "id", ftype := .Integer },
      { name := "name", ftype := .Text }, { name := "__change__", ftype := .Text }]
    oidFieldName := "OBJECTID"
    globalIDFieldName := "" }

/-- Target mirror table of the update example. -/
def tgtDescEx : TableDesc :=
  { fields := [{ name := "OBJECTID", ftype := .OID }, { name := "id", ftype := .Integer },
      { name := "name", ftype := .Text }]
    oidFieldName := "OBJECTID"
    globalIDFieldName := "" }

/-- An UPDATE source row: its own OBJECTID is 7, it updates identifier 1. -/
def updRowEx : List Val := [.i 7, .i 1, .s "new", .s "UPDATE"]

/-- The matching target row: OBJECTID 1, identifier 1, old attribute. -/
def tgtRowEx : List Val := [.i 1, .i 1, .s "old"]

/-- Two json changeset artifacts for the retention witness. -/
def jsonFilesEx : List Artifact :=
  [{ artifact_name := "a.json", ctime := 3 }, { artifact_name := "b.json", ctime := 7 }]

/-- A feature class whose id field already has the Integer type. -/
def fcIntEx : FeatureClass :=
  { fields := [{ name := "id", ftype := .Integer }, { name := "nm", ftype := .Text }]
    rows := [[.i 1, .s "a"]]
    indexes := [] }

/-! # Theorems -/

/-- Filtering by a disjunction of pointwise-exclusive predicates splits the
count. -/
theorem length_filter_or {α : Type} (p q : α → Bool) (l : List α)
    (h : ∀ a ∈ l, ¬ (p a = true ∧ q a = true)) :
    (l.filter (fun a => p a || q a)).length
      = (l.filter p).length + (l.filter q).length := by
  induction l with
  | nil => rfl
  | cons a l ih =>
    have ha := h a (List.mem_cons_self a l)
    have ih' := ih (fun b hb => h b (List.mem_cons_of_mem a hb))
    by_cases hp : p a = true <;> by_cases hq : q a = true
    · exact absurd ⟨hp, hq⟩ ha
    · simp [List.filter_cons, hp, hq, ih']
      omega
    · simp [List.filter_cons, hp, hq, ih']
      omega
    · simp [List.filter_cons, hp, hq, ih']

/-- The rows failing a predicate are the rest of the list. -/
theorem length_filter_not {α : Type} (p : α → Bool) (l : List α) :
    (l.filter (fun a => !(p a))).length = l.length - (l.filter p).length := by
  induction l with
  | nil => rfl
  | cons a l ih =>
    have hle := List.length_filter_le p l
    by_cases hp : p a = true <;> simp [List.filter_cons, hp, ih] <;> omega

/-- Counting rows whose identifier lies in a duplicate-free list is the sum
of the per-identifier counts. -/
theorem length_filter_mem (m : List MirrorRow) (D : List Int) (hD : D.Nodup) :
    (m.filter (fun r => decide (r.id ∈ D))).length
      = (D.map (fun i => (m.filter (fun r => decide (r.id = i))).length)).sum := by
  induction D with
  | nil => simp
  | cons i D ih =>
    have hiD : ¬ i ∈ D := (List.nodup_cons.mp hD).1
    have hcong : ∀ r ∈ m,
        (decide (r.id ∈ i :: D)) = ((decide (r.id = i)) || (decide (r.id ∈ D))) := by
      intro r _
      simp [List.mem_cons]
    rw [List.filter_congr hcong, length_filter_or]
    · rw [ih (List.nodup_cons.mp hD).2]
      simp
    · intro r _ ⟨h1, h2⟩
      exact hiD (by simpa using (of_decide_eq_true h1) ▸ (of_decide_eq_true h2))

/-- A sum of ones is a length. -/
theorem sum_map_eq_length {α : Type} (f : α → Nat) (l : List α)
    (h : ∀ a ∈ l, f a = 1) : (l.map f).sum = l.length := by
  induction l with
  | nil => rfl
  | cons a l ih =>
    simp [h a (List.mem_cons_self a l),
      ih (fun b hb => h b (List.mem_cons_of_mem a hb))]
    omega

/-- When every case-insensitively matched delete tag is exactly DELETE, the
delete-id list is as long as the DELETE count. -/
theorem delete_ids_length (cs : List ChangeRec)
    (htags : ∀ r ∈ cs, pyLower r.tag = "delete" → r.tag = "DELETE") :
    (delete_ids cs).length = countTag cs "DELETE" := by
  unfold delete_ids countTag
  rw [List.length_map]
  congr 1
  apply List.filter_congr
  intro r hr
  apply decide_eq_decide.mpr
  constructor
  · exact htags r hr
  · intro h
    rw [h]
    decide

/-- The update pass never changes the row count. -/
theorem updatePhase_length (cs : List ChangeRec) (m : List MirrorRow) :
    (updatePhase cs m).length = m.length := by
  unfold updatePhase
  split <;> simp

/-- The insert pass adds exactly the INSERT count. -/
theorem insertPhase_length (cs : List ChangeRec) (m : List MirrorRow) :
    (insertPhase cs m).length = m.length + countTag cs "INSERT" := by
  unfold insertPhase
  by_cases h : 0 < countTag cs "INSERT"
  · rw [if_pos h]
    simp [insertRows, countTag]
  · rw [if_neg h]
    omega

/-- Under the hypotheses of the amended row-count claim, the delete pass
removes exactly the DELETE count, which is bounded by the mirror size. -/
theorem deletePhase_length (cs : List ChangeRec) (m : List MirrorRow)
    (htags : ∀ r ∈ cs, pyLower r.tag = "delete" → r.tag = "DELETE")
    (hnodup : (delete_ids cs).Nodup)
    (hmatch : ∀ i ∈ delete_ids cs, (m.filter (fun r => decide (r.id = i))).length = 1) :
    (deletePhase cs m).length = m.length - countTag cs "DELETE"
      ∧ countTag cs "DELETE" ≤ m.length := by
  have hkey : (m.filter (fun r => decide (r.id ∈ delete_ids cs))).length
      = countTag cs "DELETE" := by
    rw [length_filter_mem m (delete_ids cs) hnodup,
      sum_map_eq_length _ _ hmatch, delete_ids_length cs htags]
  have hle : countTag cs "DELETE" ≤ m.length := by
    rw [← hkey]
    exact List.length_filter_le _ m
  refine ⟨?_, hle⟩
  unfold deletePhase
  by_cases h : 0 < countTag cs "DELETE"
  · rw [if_pos h, ← hkey]
    simpa using length_filter_not (fun r => decide (r.id ∈ delete_ids cs)) m
  · rw [if_neg h]
    omega

/-- C1 fails as stated: with the one-record changeset csUnmatchedDelete
(a DELETE whose identifier 99 matches no mirror row) and the one-row mirror
mirrorOne, the delete/insert/update id sets are disjoint, yet the final row
count is 1 while `before - deletes + inserts` is 0; applyChangeset records
the discrepancy in its report instead of matching the equation. -/
theorem applyChangeset_rowcount_counterexample :
    disjointIds csUnmatchedDelete
      ∧ (applyChangeset csUnmatchedDelete mirrorOne).final_total = 1
      ∧ (applyChangeset csUnmatchedDelete mirrorOne).expected_total = 0
      ∧ (applyChangeset csUnmatchedDelete mirrorOne).mismatch = true := by
  decide

/-- C1 (amended): for a changeset whose delete/insert/update id sets are
disjoint, whose delete records are tagged exactly DELETE with pairwise
distinct identifiers each matching exactly one mirror row, the row count
after applyChangeset equals (count before) - (delete records) + (insert
records), and the non-fatal mismatch anomaly is not raised; the check
itself only sets the report flag, so the run always completes. -/
theorem applyChangeset_rowcount_invariant (cs : List ChangeRec) (m : List MirrorRow)
    (hdisj : disjointIds cs)
    (htags : ∀ r ∈ cs, pyLower r.tag = "delete" → r.tag = "DELETE")
    (hnodup : (delete_ids cs).Nodup)
    (hmatch : ∀ i ∈ delete_ids cs, (m.filter (fun r => decide (r.id = i))).length = 1) :
    ((applyChangeset cs m).final_total : Int) = (applyChangeset cs m).expected_total
      ∧ (applyChangeset cs m).mismatch = false := by
  obtain ⟨hdel, hdle⟩ := deletePhase_length cs m htags hnodup hmatch
  have hfinal : (applyChangeset cs m).final_total
      = m.length - countTag cs "DELETE" + countTag cs "INSERT" := by
    show (updatePhase cs (insertPhase cs (deletePhase cs m))).length = _
    rw [updatePhase_length, insertPhase_length, hdel]
  have hexp : (applyChangeset cs m).expected_total
      = (m.length : Int) - (countTag cs "DELETE" : Int) + (countTag cs "INSERT" : Int) := rfl
  have heq : ((applyChangeset cs m).final_total : Int) = (applyChangeset cs m).expected_total := by
    rw [hfinal, hexp]
    push_cast [Nat.cast_sub hdle]
    ring
  refine ⟨heq, ?_⟩
  have hmis : (applyChangeset cs m).mismatch
      = ((applyChangeset cs m).expected_total != ((applyChangeset cs m).final_total : Int)) := rfl
  rw [hmis, ← heq]
  simp

/-- Witness for the amended C1 at Scenario A of the spec: mirror {1, 2},
changeset {insert 3, delete 1}; the hypotheses hold and the row count comes
out at 2 = 2 - 1 + 1 with no anomaly. -/
theorem applyChangeset_rowcount_invariant_witness :
    ((applyChangeset csScenarioA mirrorScenarioA).final_total : Int)
        = (applyChangeset csScenarioA mirrorScenarioA).expected_total
      ∧ (applyChangeset csScenarioA mirrorScenarioA).mismatch = false :=
  applyChangeset_rowcount_invariant csScenarioA mirrorScenarioA
    (by decide) (by decide) (by decide) (by decide)

/-- C5 fails as stated: in csLowerDelete the only delete record is tagged
in lower case, so the delete-identifier set {1} (collected by the
case-insensitive cursor) is non-empty, yet the count of rows tagged exactly
DELETE is 0 and the batch delete is not executed: the matching mirror row
survives applyChangeset. -/
theorem delete_batch_condition_counterexample :
    delete_ids csLowerDelete ≠ []
      ∧ countTag csLowerDelete "DELETE" = 0
      ∧ (applyChangeset csLowerDelete mirrorOne).mirror = mirrorOne := by
  decide

/-- C5 (amended): delete identifiers are selected by case-insensitive
comparison of the tag against delete, while insert and update rows are
matched by case-sensitive comparison against INSERT and UPDATE; the
single-batch delete with predicate `identifier IN delete-ids` is executed
if and only if the count of records tagged exactly DELETE is positive (not
when the case-insensitively collected id set is non-empty). -/
theorem delete_selection_and_batch_condition (cs : List ChangeRec) (m : List MirrorRow) :
    (∀ i : Int, i ∈ delete_ids cs ↔ ∃ r ∈ cs, r.id = i ∧ pyLower r.tag = "delete")
      ∧ (∀ row : MirrorRow, row ∈ insertRows cs
          ↔ ∃ r ∈ cs, r.tag = "INSERT" ∧ row = { id := r.id, payload := r.payload })
      ∧ (∀ r : ChangeRec, r ∈ updateRecs cs ↔ r ∈ cs ∧ r.tag = "UPDATE")
      ∧ (0 < countTag cs "DELETE" →
          deletePhase cs m = m.filter (fun r => !(decide (r.id ∈ delete_ids cs))))
      ∧ (countTag cs "DELETE" = 0 → deletePhase cs m = m) := by
  refine ⟨?_, ?_, ?_, ?_, ?_⟩
  · intro i
    unfold delete_ids
    constructor
    · intro h
      obtain ⟨r, hr, hid⟩ := List.mem_map.mp h
      obtain ⟨hmem, htag⟩ := List.mem_filter.mp hr
      exact ⟨r, hmem, hid, of_decide_eq_true htag⟩
    · intro ⟨r, hmem, hid, htag⟩
      exact List.mem_map.mpr ⟨r, List.mem_filter.mpr ⟨hmem, decide_eq_true htag⟩, hid⟩
  · intro row
    unfold insertRows
    constructor
    · intro h
      obtain ⟨r, hr, hid⟩ := List.mem_map.mp h
      obtain ⟨hmem, htag⟩ := List.mem_filter.mp hr
      exact ⟨r, hmem, of_decide_eq_true htag, hid.symm⟩
    · intro ⟨r, hmem, htag, hrow⟩
      exact List.mem_map.mpr ⟨r, List.mem_filter.mpr ⟨hmem, decide_eq_true htag⟩, hrow.symm⟩
  · intro r
    unfold updateRecs
    constructor
    · intro h
      obtain ⟨hmem, htag⟩ := List.mem_filter.mp h
      exact ⟨hmem, of_decide_eq_true htag⟩
    · intro ⟨hmem, htag⟩
      exact List.mem_filter.mpr ⟨hmem, decide_eq_true htag⟩
  · intro h
    unfold deletePhase
    rw [if_pos h]
  · intro h
    unfold deletePhase
    rw [if_neg (by omega)]

/-- Witness for the amended C5 at csLowerDelete: with no exactly-DELETE
record the delete batch is skipped and the mirror is untouched. -/
theorem delete_selection_and_batch_condition_witness :
    deletePhase csLowerDelete mirrorOne = mirrorOne :=
  (delete_selection_and_batch_condition csLowerDelete mirrorOne).2.2.2.2 (by decide)

/-- C2 fails as stated: a downloaded changeset reporting numberReturned 0
(and a server timestamp of 12345) skips the reconciliation, but the
watermark file is not advanced to the server-reported timestamp — it keeps
its previous contents 100, because update_last_updated_file is only called
inside the positive branch of processChangeSet. -/
theorem processChangeSet_zero_changes_counterexample :
    processChangeSet none (fun _ _ => true) none
        (some { numberReturned := 0, timeStamp := some 12345, records := [] })
        777 [] (some 100)
      = .ok { converted := false, merged := false, watermark := some 100, mirror := [] }
      ∧ (some 100 : Option Nat) ≠ some 12345 := by
  decide

/-- C2 (amended): for every incremental run whose downloaded changeset
reports numberReturned 0, the reconciliation (conversion, filtering, merge)
is skipped entirely and the watermark file is not written at all: it keeps
its previous contents instead of advancing to the server-reported
timestamp. -/
theorem processChangeSet_zero_changes_skips_all
    (eg : Option Geom) (inter : Geom → ChangeRec → Bool) (sf : Option String)
    (d : ChangesetFile) (utcnow : Nat) (mirror : List MirrorRow) (w : Option Nat)
    (h : d.numberReturned = 0) :
    processChangeSet eg inter sf (some d) utcnow mirror w
      = .ok { converted := false, merged := false, watermark := w, mirror := mirror } := by
  simp [processChangeSet, number_of_changes, h]

/-- Witness for the amended C2 at a concrete zero-change changeset. -/
theorem processChangeSet_zero_changes_skips_all_witness :
    processChangeSet none (fun _ _ => true) none
        (some { numberReturned := 0, timeStamp := some 12345, records := [] })
        777 [] (some 100)
      = .ok { converted := false, merged := false, watermark := some 100, mirror := [] } :=
  processChangeSet_zero_changes_skips_all none (fun _ _ => true) none
    { numberReturned := 0, timeStamp := some 12345, records := [] } 777 [] (some 100) rfl

/-- C10: a changeset file path that refers to no existing file makes
number_of_changes report 0 rather than raising, so processChangeSet
silently takes the no-changes branch: no conversion, no merge, no
watermark write. -/
theorem missing_changeset_file_noop
    (eg : Option Geom) (inter : Geom → ChangeRec → Bool) (sf : Option String)
    (utcnow : Nat) (mirror : List MirrorRow) (w : Option Nat) :
    number_of_changes none = 0
      ∧ processChangeSet eg inter sf none utcnow mirror w
        = .ok { converted := false, merged := false, watermark := w, mirror := mirror } := by
  refine ⟨rfl, ?_⟩
  simp [processChangeSet, number_of_changes]

/-- One incremental run either leaves the watermark file alone or writes
the run's own completion instant, never anything else. -/
theorem csRunWatermark_cases (inter : Geom → ChangeRec → Bool) (a : CsRunArgs)
    (w : Option Nat) :
    csRunWatermark inter a w = w ∨ csRunWatermark inter a w = some a.utcnow := by
  unfold csRunWatermark processChangeSet
  by_cases h : 0 < number_of_changes a.changeset_file
  · rw [if_pos h]
    rcases hsql : deleteFeaturesNotMatchingSQL a.sql_filter
        (deleteFeaturesNotIntersectingExtent a.extent_geometry inter
          (some (match a.changeset_file with | some d => d.records | none => []))) with v | e
    · simp only [hsql]
      right
      rfl
    · simp only [hsql]
      left
      trivial
  · rw [if_neg h]
    left
    rfl

/-- After any run sequence the watermark file holds its initial contents or
the completion instant of one of the runs. -/
theorem watermarkSeq_cases (inter : Geom → ChangeRec → Bool) (w0 : Option Nat)
    (runs : List CsRunArgs) :
    watermarkSeq inter w0 runs = w0
      ∨ ∃ a ∈ runs, watermarkSeq inter w0 runs = some a.utcnow := by
  induction runs generalizing w0 with
  | nil => left; rfl
  | cons a runs ih =>
    have hseq : watermarkSeq inter w0 (a :: runs)
        = watermarkSeq inter (csRunWatermark inter a w0) runs := rfl
    rcases ih (csRunWatermark inter a w0) with h | ⟨b, hb, h⟩
    · rcases csRunWatermark_cases inter a w0 with h2 | h2
      · left
        rw [hseq, h, h2]
      · right
        exact ⟨a, List.mem_cons_self a runs, by rw [hseq, h, h2]⟩
    · right
      exact ⟨b, List.mem_cons_of_mem a hb, by rw [hseq, h]⟩

/-- C3: across any sequence of incremental runs whose completion instants
are non-decreasing (UTC time moves forward) and start at or after the
initially stored watermark, the stored watermark is monotonically
non-decreasing from each run to the next; the watermark file is written
only as the last step of a successfully completed run (a raised exception
leaves it untouched), and the value written is always the completing run's
own UTC instant — likewise for the full-refresh path. -/
theorem watermark_monotone_write_after_success (inter : Geom → ChangeRec → Bool)
    (w0 : Option Nat) (runs : List CsRunArgs)
    (hmono : runs.Pairwise (fun a b => a.utcnow ≤ b.utcnow))
    (hinit : ∀ v, w0 = some v → ∀ a ∈ runs, v ≤ a.utcnow) :
    (∀ i : Nat, optionLe (watermarkSeq inter w0 (runs.take i))
        (watermarkSeq inter w0 (runs.take (i + 1))))
      ∧ (∀ (a : CsRunArgs) (w : Option Nat) (e : String),
          processChangeSet a.extent_geometry inter a.sql_filter a.changeset_file
              a.utcnow a.mirror w = .err e →
            csRunWatermark inter a w = w)
      ∧ (∀ (a : CsRunArgs) (w : Option Nat),
          csRunWatermark inter a w = w ∨ csRunWatermark inter a w = some a.utcnow)
      ∧ (∀ (eg : Option Geom) (ir : Geom → MirrorRow → Bool) (sf : Option String)
          (zr : List MirrorRow) (t : Nat) (w : Option Nat),
          fullRunWatermark eg ir sf zr t w = w
            ∨ fullRunWatermark eg ir sf zr t w = some t) := by
  refine ⟨?_, ?_, csRunWatermark_cases inter, ?_⟩
  · intro i
    by_cases hlen : runs.length ≤ i
    · rw [List.take_of_length_le hlen, List.take_of_length_le (by omega)]
      intro v hv
      exact ⟨v, hv, Nat.le_refl v⟩
    · push_neg at hlen
      have htake : runs.take (i + 1) = runs.take i ++ [runs[i]] := by
        rw [List.take_succ, List.getElem?_eq_getElem hlen]
        rfl
      have hstep : watermarkSeq inter w0 (runs.take (i + 1))
          = csRunWatermark inter runs[i] (watermarkSeq inter w0 (runs.take i)) := by
        rw [htake]
        unfold watermarkSeq
        rw [List.foldl_append]
        rfl
      intro v hv
      rcases csRunWatermark_cases inter runs[i] (watermarkSeq inter w0 (runs.take i))
          with h2 | h2
      · exact ⟨v, by rw [hstep, h2, hv], Nat.le_refl v⟩
      · refine ⟨runs[i].utcnow, by rw [hstep, h2], ?_⟩
        rcases watermarkSeq_cases inter w0 (runs.take i) with h3 | ⟨b, hb, h3⟩
        · exact hinit v (by rw [← h3, hv]) runs[i] (List.getElem_mem hlen)
        · have hbv : b.utcnow = v := by
            have := h3 ▸ hv
            exact (Option.some.injEq _ _).mp this
          have hcross : ∀ x ∈ runs.take i, ∀ y ∈ runs.drop i, x.utcnow ≤ y.utcnow := by
            have hsplit := List.take_append_drop i runs
            rw [← hsplit] at hmono
            exact (List.pairwise_append.mp hmono).2.2
          have hidrop : runs[i] ∈ runs.drop i := by
            have hlt : 0 < (runs.drop i).length := by
              rw [List.length_drop]
              omega
            have : (runs.drop i)[0] = runs[i] := by
              rw [List.getElem_drop]
              simp
            rw [← this]
            exact List.getElem_mem hlt
          exact hbv ▸ hcross b hb runs[i] hidrop
  · intro a w e he
    unfold csRunWatermark
    rw [he]
  · intro eg ir sf zr t w
    unfold fullRunWatermark processFullDownload
    rcases hsql : deleteFeaturesNotMatchingSQL sf
        (deleteFeaturesNotIntersectingExtent eg ir (some zr)) with v | e
    · simp only [hsql]
      right
      rfl
    · simp only [hsql]
      left
      trivial

/-- Witness for C3 on the two concrete runs runEx1 and runEx2: the
watermark after the first run is at most the watermark after the second. -/
theorem watermark_monotone_write_after_success_witness :
    optionLe (watermarkSeq interTrue none ([runEx1, runEx2].take 1))
      (watermarkSeq interTrue none ([runEx1, runEx2].take 2)) :=
  (watermark_monotone_write_after_success interTrue none [runEx1, runEx2]
    (by simp [List.pairwise_cons, runEx1, runEx2])
    (fun v hv => by cases hv)).1 1

/-- The poll loop with a never-complete well-formed status stream always
ends in the timeout LINZError, whatever the fuel, elapsed time and attempt
counter. -/
theorem pollLoop_timeout (responses : Nat → PollResp) (interval maxWait : Nat)
    (hrun : ∀ n, ∃ st p, responses n = .ok st p ∧ st ≠ "complete") :
    ∀ fuel elapsed attempt,
      pollLoop responses interval maxWait fuel elapsed attempt
        = .raisedLINZError timeoutMessage := by
  intro fuel
  induction fuel with
  | zero => intro elapsed attempt; rfl
  | succ fuel ih =>
    intro elapsed attempt
    unfold pollLoop
    by_cases h : elapsed < maxWait
    · rw [if_pos h]
      obtain ⟨st, p, hresp, hne⟩ := hrun (attempt + 1)
      simp only [hresp]
      rw [if_neg hne]
      exact ih _ _
    · rw [if_neg h]

/-- C4 fails as stated: polling export 12345 with interval 10 and maxWait
600 against a job that reports running forever ends in a raised LINZError
(the exception propagates to the caller), and the error text contains the
literal placeholder characters instead of the job identifier, because the
message of line 500 is not an f-string. -/
theorem download_export_timeout_counterexample :
    download_export runningForever 10 600 "12345" = .raisedLINZError timeoutMessage
      ∧ ("\x7bself.export_id\x7d".toList <:+: timeoutMessage.toList)
      ∧ ¬ ("12345".toList <:+: timeoutMessage.toList) := by
  decide

/-- C4 (amended): whenever the job never reaches the complete state within
maxWait (every poll returning a well-formed running status), download_export
raises a LINZError advising the operator to resume — the exception
propagates to the caller rather than a TimedOut value being returned — and
the message is the same whatever the export identifier is, since the
missing f-string prefix keeps the identifier out of it. -/
theorem download_export_timeout_raises (responses : Nat → PollResp)
    (interval maxWait : Nat) (id1 id2 : String)
    (hrun : ∀ n, ∃ st p, responses n = .ok st p ∧ st ≠ "complete") :
    download_export responses interval maxWait id1 = .raisedLINZError timeoutMessage
      ∧ download_export responses interval maxWait id1
        = download_export responses interval maxWait id2 :=
  ⟨pollLoop_timeout responses interval maxWait hrun _ _ _, rfl⟩

/-- Witness for the amended C4 at the running-forever stream. -/
theorem download_export_timeout_raises_witness :
    download_export runningForever 10 600 "a" = .raisedLINZError timeoutMessage
      ∧ download_export runningForever 10 600 "a"
        = download_export runningForever 10 600 "b" :=
  download_export_timeout_raises runningForever 10 600 "a" "b"
    (fun _ => ⟨"running", 0, rfl, by decide⟩)

/-- C6: the intended exclusion of the internal row-id and global-id columns
fails, because the lowercased field names are compared against the
original-case Describe names.  With the standard upper-case OBJECTID name,
the row-id column stays in the overwrite set, and the update pass writes
the source row's OBJECTID value (7) over the matched target row's own
OBJECTID (1) — while looking the row up by identifier and copying the other
shared columns by value in a single pass, as the claim describes. -/
theorem processUpdates_overwrites_oid_bug :
    tgtDescEx.oidFieldName = "OBJECTID"
      ∧ "objectid" ∈ target_fields srcDescEx tgtDescEx
      ∧ rowVal tgtDescEx tgtRowEx "objectid" = some (.i 1)
      ∧ processUpdates srcDescEx tgtDescEx "id" [updRowEx] [tgtRowEx]
        = .ok [[.i 7, .i 1, .s "new"]] := by
  decide

/-- Rebuilding the id_idx2 index is idempotent. -/
theorem addIndex_idem (idxs : List IndexDef) (f : String) :
    addIndex (addIndex idxs f) f = addIndex idxs f := by
  unfold addIndex
  rw [List.filter_append]
  simp [List.filter_filter]

/-- C7: identifier normalization is idempotent on an already-integer id
column: convertIdFieldToInteger leaves the schema and every data value
unchanged, performs only the (re)build of the unique id_idx2 index, and
running it again changes nothing further. -/
theorem convertIdFieldToInteger_integer_noop (id_field : String) (fc : FeatureClass)
    (fld : FieldDesc)
    (hfind : fc.fields.find? (fun f => f.name = id_field) = some fld)
    (hint : fld.ftype = .Integer) :
    (convertIdFieldToInteger id_field fc).fields = fc.fields
      ∧ (convertIdFieldToInteger id_field fc).rows = fc.rows
      ∧ (convertIdFieldToInteger id_field fc).indexes = addIndex fc.indexes id_field
      ∧ convertIdFieldToInteger id_field (convertIdFieldToInteger id_field fc)
        = convertIdFieldToInteger id_field fc := by
  have h1 : convertIdFieldToInteger id_field fc
      = { fc with indexes := addIndex fc.indexes id_field } := by
    unfold convertIdFieldToInteger
    simp [hfind, hint]
  refine ⟨by rw [h1], by rw [h1], by rw [h1], ?_⟩
  rw [h1]
  unfold convertIdFieldToInteger
  simp [hfind, hint, addIndex_idem]

/-- Witness for C7 at the concrete feature class fcIntEx. -/
theorem convertIdFieldToInteger_integer_noop_witness :
    (convertIdFieldToInteger "id" fcIntEx).fields = fcIntEx.fields
      ∧ (convertIdFieldToInteger "id" fcIntEx).rows = fcIntEx.rows
      ∧ (convertIdFieldToInteger "id" fcIntEx).indexes = addIndex fcIntEx.indexes "id"
      ∧ convertIdFieldToInteger "id" (convertIdFieldToInteger "id" fcIntEx)
        = convertIdFieldToInteger "id" fcIntEx :=
  convertIdFieldToInteger_integer_noop "id" fcIntEx
    { name := "id", ftype := .Integer } (by decide) rfl

/-- C8: the geometry filter is idempotent as the claim states, and the
attribute filter written with self.sql_filter would be idempotent and
commute with the geometry filter; but the attribute filter as coded raises
NameError as soon as a SQL filter is configured (line 848 reads the
undefined bare name sql_filter), so re-running it on an already-filtered
table crashes instead of removing no rows. -/
theorem postFilter_idempotent_and_sql_namerror :
    (∀ (α : Type) (eg : Option Geom) (inter : Geom → α → Bool) (fc : Option (List α)),
        deleteFeaturesNotIntersectingExtent eg inter
            (deleteFeaturesNotIntersectingExtent eg inter fc)
          = deleteFeaturesNotIntersectingExtent eg inter fc)
      ∧ deleteFeaturesNotMatchingSQL (some "category = 1") (some mirrorOne)
        = .err "NameError: name sql_filter is not defined"
      ∧ (∀ (α : Type) (ms : String → α → Bool) (sf : Option String)
          (fc : Option (List α)),
          deleteFeaturesNotMatchingSQLIntended ms sf
              (deleteFeaturesNotMatchingSQLIntended ms sf fc)
            = deleteFeaturesNotMatchingSQLIntended ms sf fc)
      ∧ (∀ (α : Type) (eg : Option Geom) (inter : Geom → α → Bool)
          (ms : String → α → Bool) (sf : Option String) (fc : Option (List α)),
          deleteFeaturesNotMatchingSQLIntended ms sf
              (deleteFeaturesNotIntersectingExtent eg inter fc)
            = deleteFeaturesNotIntersectingExtent eg inter
              (deleteFeaturesNotMatchingSQLIntended ms sf fc)) := by
  refine ⟨?_, rfl, ?_, ?_⟩
  · intro α eg inter fc
    rcases fc with _ | rows
    · rfl
    · rcases eg with _ | g
      · rfl
      · unfold deleteFeaturesNotIntersectingExtent
        simp [List.filter_filter]
  · intro α ms sf fc
    rcases fc with _ | rows
    · rfl
    · rcases sf with _ | s
      · rfl
      · unfold deleteFeaturesNotMatchingSQLIntended
        simp [List.filter_filter]
  · intro α eg inter ms sf fc
    rcases fc with _ | rows
    · rfl
    · rcases eg with _ | g <;> rcases sf with _ | s
      · rfl
      · rfl
      · rfl
      · unfold deleteFeaturesNotIntersectingExtent deleteFeaturesNotMatchingSQLIntended
        simp only [List.filter_filter]
        congr 1
        apply List.filter_congr
        intro r _
        exact Bool.and_comm _ _

/-- C9 fails as stated: with retention count 0 and one json artifact,
purgeChangesets deletes nothing (retain_after_purge 0 is falsy and skips
the purge, exactly like purge-disabled), where the claim demands that zero
artifacts remain. -/
theorem purgeChangesets_zero_retention_counterexample :
    purgeChangesets 0 [{ artifact_name := "a.json", ctime := 5 }] [] []
        = ([{ artifact_name := "a.json", ctime := 5 }], [], [])
      ∧ (purgeChangesets 0 [{ artifact_name := "a.json", ctime := 5 }] [] []).1.length ≠ 0 := by
  decide

/-- What remains of one file kind after the purge: the retain newest by
creation time, all drawn from the original list, every survivor at least
as new as every deleted artifact. -/
theorem keepNewest_spec (retain : Nat) (files : List Artifact) :
    (keepNewest retain files).length = min retain files.length
      ∧ (∀ a ∈ keepNewest retain files, a ∈ files)
      ∧ ∀ a ∈ keepNewest retain files, ∀ b ∈ files,
          b ∉ keepNewest retain files → b.ctime ≤ a.ctime := by
  have hperm : (files.insertionSort ctimeDesc).Perm files :=
    List.perm_insertionSort ctimeDesc files
  have hsorted : (files.insertionSort ctimeDesc).Pairwise ctimeDesc :=
    List.sorted_insertionSort ctimeDesc files
  refine ⟨?_, ?_, ?_⟩
  · unfold keepNewest
    rw [List.length_take, hperm.length_eq]
  · intro a ha
    exact hperm.mem_iff.mp ((List.take_sublist retain _).subset ha)
  · intro a ha b hb hbn
    have hbs : b ∈ files.insertionSort ctimeDesc := hperm.mem_iff.mpr hb
    rw [← List.take_append_drop retain (files.insertionSort ctimeDesc)] at hbs hsorted
    rcases List.mem_append.mp hbs with hbt | hbd
    · exact absurd hbt hbn
    · exact (List.pairwise_append.mp hsorted).2.2 a ha b hbd

/-- What remains of the feature-class kind after the purge: non-changeset
classes are untouched, and of the changeset classes the retain greatest by
name survive, each at least as great as every deleted one. -/
theorem purgeFcs_spec (retain : Nat) (fcs : List String) (hnodup : fcs.Nodup) :
    (changesetFcs (purgeFcsKept retain fcs)).length
        = min retain (changesetFcs fcs).length
      ∧ (∀ a ∈ purgeFcsKept retain fcs, a ∈ fcs)
      ∧ (∀ b ∈ fcs, pyContains b "changeset" = false → b ∈ purgeFcsKept retain fcs)
      ∧ ∀ a ∈ changesetFcs (purgeFcsKept retain fcs), ∀ b ∈ changesetFcs fcs,
          b ∉ purgeFcsKept retain fcs → nameAsc b a := by
  have hperm : ((changesetFcs fcs).insertionSort nameAsc).Perm (changesetFcs fcs) :=
    List.perm_insertionSort nameAsc (changesetFcs fcs)
  have hsorted : ((changesetFcs fcs).insertionSort nameAsc).Pairwise nameAsc :=
    List.sorted_insertionSort nameAsc (changesetFcs fcs)
  have hchnodup : (changesetFcs fcs).Nodup := hnodup.filter _
  have hsnodup : ((changesetFcs fcs).insertionSort nameAsc).Nodup :=
    hperm.nodup_iff.mpr hchnodup
  have hDch : ∀ b ∈ fcsToDelete retain fcs, pyContains b "changeset" = true := by
    intro b hbD
    have hbs : b ∈ (changesetFcs fcs).insertionSort nameAsc :=
      (List.take_sublist _ _).subset hbD
    exact (List.mem_filter.mp (hperm.mem_iff.mp hbs)).2
  have hkept : ∀ x, x ∈ purgeFcsKept retain fcs ↔
      x ∈ fcs ∧ ¬ x ∈ fcsToDelete retain fcs := by
    intro x
    unfold purgeFcsKept
    rw [List.mem_filter]
    simp
  refine ⟨?_, ?_, ?_, ?_⟩
  · have hff : changesetFcs (purgeFcsKept retain fcs)
        = (changesetFcs fcs).filter (fun n => !(decide (n ∈ fcsToDelete retain fcs))) := by
      unfold changesetFcs purgeFcsKept
      rw [List.filter_filter, List.filter_filter]
      apply List.filter_congr
      intro x _
      exact Bool.and_comm _ _
    rw [hff, length_filter_not]
    have hcount : ((changesetFcs fcs).filter
        (fun n => decide (n ∈ fcsToDelete retain fcs))).length
        = (fcsToDelete retain fcs).length := by
      rw [← List.countP_eq_length_filter, ← hperm.countP_eq]
      conv_lhs => rw [← List.take_append_drop
        (((changesetFcs fcs).insertionSort nameAsc).length - retain)
        ((changesetFcs fcs).insertionSort nameAsc)]
      rw [List.countP_append]
      have h1 : (fcsToDelete retain fcs).countP
          (fun n => decide (n ∈ fcsToDelete retain fcs))
          = (fcsToDelete retain fcs).length :=
        List.countP_eq_length.mpr (fun a ha => decide_eq_true ha)
      have h2 : (((changesetFcs fcs).insertionSort nameAsc).drop
          (((changesetFcs fcs).insertionSort nameAsc).length - retain)).countP
          (fun n => decide (n ∈ fcsToDelete retain fcs)) = 0 := by
        rw [List.countP_eq_zero]
        intro a ha hmem
        have hna : (((changesetFcs fcs).insertionSort nameAsc).take
              (((changesetFcs fcs).insertionSort nameAsc).length - retain)
            ++ ((changesetFcs fcs).insertionSort nameAsc).drop
              (((changesetFcs fcs).insertionSort nameAsc).length - retain)).Nodup := by
          rw [List.take_append_drop]
          exact hsnodup
        have hdisj := (List.nodup_append.mp hna).2.2
        exact hdisj (of_decide_eq_true hmem) ha
      unfold fcsToDelete at h1 h2 ⊢
      rw [h1, h2]
      omega
    rw [hcount]
    have hDlen : (fcsToDelete retain fcs).length
        = ((changesetFcs fcs).insertionSort nameAsc).length - retain := by
      unfold fcsToDelete
      rw [List.length_take]
      omega
    rw [hDlen, hperm.length_eq]
    omega
  · intro a ha
    exact ((hkept a).mp ha).1
  · intro b hb hnch
    refine (hkept b).mpr ⟨hb, fun hbD => ?_⟩
    rw [hDch b hbD] at hnch
    cases hnch
  · intro a ha b hb hbn
    obtain ⟨hak, hach⟩ := List.mem_filter.mp ha
    obtain ⟨hafcs, haD⟩ := (hkept a).mp hak
    have hbfcs : b ∈ fcs := (List.mem_filter.mp hb).1
    have hbD : b ∈ fcsToDelete retain fcs := by
      by_contra hc
      exact hbn ((hkept b).mpr ⟨hbfcs, hc⟩)
    have has : a ∈ (changesetFcs fcs).insertionSort nameAsc :=
      hperm.mem_iff.mpr (List.mem_filter.mpr ⟨hafcs, hach⟩)
    rw [← List.take_append_drop (((changesetFcs fcs).insertionSort nameAsc).length - retain)
      ((changesetFcs fcs).insertionSort nameAsc)] at has hsorted
    rcases List.mem_append.mp has with hat | had
    · exact absurd hat haD
    · exact (List.pairwise_append.mp hsorted).2.2 b hbD a had

/-- C9 (amended): for every positive retention count N, the purge leaves of
each artifact kind exactly the min(N, M) most recent artifacts (newest by
creation time for json changeset files and full-download zips, greatest by
timestamped name for changeset feature classes, whose workspace names are
pairwise distinct; non-changeset feature classes are untouched); with N = 0
the purge is skipped entirely, behaving as purge-disabled, so the claim's
N = 0 case does not hold. -/
theorem purgeChangesets_retention (retain : Nat) (json_files zip_files : List Artifact)
    (fcs : List String) (hpos : 0 < retain) (hnodup : fcs.Nodup) :
    ((purgeChangesets retain json_files zip_files fcs).1.length
        = min retain json_files.length
      ∧ (∀ a ∈ (purgeChangesets retain json_files zip_files fcs).1, a ∈ json_files)
      ∧ ∀ a ∈ (purgeChangesets retain json_files zip_files fcs).1, ∀ b ∈ json_files,
          b ∉ (purgeChangesets retain json_files zip_files fcs).1 → b.ctime ≤ a.ctime)
    ∧ ((purgeChangesets retain json_files zip_files fcs).2.1.length
        = min retain zip_files.length
      ∧ (∀ a ∈ (purgeChangesets retain json_files zip_files fcs).2.1, a ∈ zip_files)
      ∧ ∀ a ∈ (purgeChangesets retain json_files zip_files fcs).2.1, ∀ b ∈ zip_files,
          b ∉ (purgeChangesets retain json_files zip_files fcs).2.1 → b.ctime ≤ a.ctime)
    ∧ ((changesetFcs (purgeChangesets retain json_files zip_files fcs).2.2).length
        = min retain (changesetFcs fcs).length
      ∧ (∀ a ∈ (purgeChangesets retain json_files zip_files fcs).2.2, a ∈ fcs)
      ∧ (∀ b ∈ fcs, pyContains b "changeset" = false
          → b ∈ (purgeChangesets retain json_files zip_files fcs).2.2)
      ∧ ∀ a ∈ changesetFcs (purgeChangesets retain json_files zip_files fcs).2.2,
          ∀ b ∈ changesetFcs fcs,
            b ∉ (purgeChangesets retain json_files zip_files fcs).2.2 → nameAsc b a) := by
  have hne : retain ≠ 0 := by omega
  have h1 : purgeChangesets retain json_files zip_files fcs
      = (keepNewest retain json_files, keepNewest retain zip_files,
          purgeFcsKept retain fcs) := by
    unfold purgeChangesets
    rw [if_neg hne]
  rw [h1]
  exact ⟨keepNewest_spec retain json_files, keepNewest_spec retain zip_files,
    purgeFcs_spec retain fcs hnodup⟩

/-- Witness for the amended C9: with retention 1 over two json artifacts,
exactly one (the newest) remains. -/
theorem purgeChangesets_retention_witness :
    (purgeChangesets 1 jsonFilesEx [] []).1.length = min 1 jsonFilesEx.length :=
  (purgeChangesets_retention 1 jsonFilesEx [] [] (by decide) (by decide)).1.1

end LINZ
